import Mathlib

/-!
Verification of `tools/build-templated-pages/src/examples.rs` (bevy):
a shallow embedding of the example-metadata extraction, aggregation and
rendering pipeline, with theorems about its behaviour.

TOML items are dynamically typed, so manifest values are modelled by an
`Item` type with the optional typed accessors the code uses (`as_str`,
`as_bool`).  Rust panics are modelled by `Except PanicKind`.  The template
renderer is an external collaborator: the modelled output of a run is the
aggregated catalog handed to it (the `all_examples` context entry).
-/

namespace BevyExamples

/-- A dynamically typed manifest value, as the TOML document tree exposes it. -/
inductive Item where
  | str (s : String)
  | bool (b : Bool)
  | int (n : Int)
  | other
deriving DecidableEq

/-- Model of `Item::as_str`: the string value if the item is a string, otherwise none. -/
def Item.as_str : Item → Option String
  | .str s => some s
  | _ => none

/-- Model of `Item::as_bool`: the boolean value if the item is a boolean, otherwise none. -/
def Item.as_bool : Item → Option Bool
  | .bool b => some b
  | _ => none

/-- One entry of the manifest's `[[example]]` array of tables, restricted to
the keys the code reads: `name`, `path` and the `doc-scrape-examples` marker.
A `none` field models an absent key. -/
structure Decl where
  name : Option Item
  path : Option Item
  doc_scrape_examples : Option Item
deriving DecidableEq

/-- One entry of the `[package.metadata.example]` table, restricted to the
keys the code reads. A `none` field models an absent key. -/
structure MetaEntry where
  name : Option Item
  description : Option Item
  category : Option Item
  wasm : Option Item
  hidden : Option Item
deriving DecidableEq

/-- The metadata table, keyed by technical name (TOML keys are unique, so
first-match lookup is faithful). -/
def Metas := List (String × MetaEntry)

/-- Model of `metadatas.get(&technical_name)`. -/
def getMeta (metas : Metas) (tn : String) : Option MetaEntry :=
  List.lookup tn metas

/-- The validated, merged record the rest of the pipeline operates on
(struct `Example` in the source). -/
structure Example where
  technical_name : String
  path : String
  name : String
  description : String
  category : String
  wasm : Bool
deriving DecidableEq

/-- The ways the tool panics: malformed-manifest unwraps, and the two
strict-mode checks that name the offending example. -/
inductive PanicKind where
  | malformedManifest
  | missingMetadata (technical_name : String)
  | missingDocScrape (technical_name : String)
deriving DecidableEq

/-- Model of `Option::unwrap`: a `none` is a malformed-manifest panic. -/
def req {α : Type} (x : Option α) : Except PanicKind α :=
  match x with
  | some v => .ok v
  | none => .error .malformedManifest

/-- The body of the `flat_map` closure in `parse_examples`, for a single
declaration: the strict-mode checks, the hidden check, then construction of
the `Example` record (each field access unwrapping as the code does).
`.ok none` models the closure returning `None` (declaration skipped). -/
def extract_one (panic_on_missing : Bool) (metas : Metas) (d : Decl) :
    Except PanicKind (Option Example) := do
  let tn ← req (d.name.bind Item.as_str)
  if panic_on_missing && (getMeta metas tn).isNone then
    throw (.missingMetadata tn)
  else if panic_on_missing && d.doc_scrape_examples.isNone then
    throw (.missingDocScrape tn)
  else if (((getMeta metas tn).bind MetaEntry.hidden).bind Item.as_bool).getD false then
    return none
  else
    match getMeta metas tn with
    | none => return none
    | some metadata => do
        let p ← req (d.path.bind Item.as_str)
        let nm ← req (metadata.name.bind Item.as_str)
        let ds ← req (metadata.description.bind Item.as_str)
        let cat ← req (metadata.category.bind Item.as_str)
        let w ← req (metadata.wasm.bind Item.as_bool)
        return some
          { technical_name := tn, path := p, name := nm, description := ds,
            category := cat, wasm := w }

/-- Model of `parse_examples`: iterate the declarations in manifest order, flat-map
`extract_one` over them, collecting the produced records; the first panic
aborts the whole run. -/
def parse_examples (panic_on_missing : Bool) (metas : Metas) :
    List Decl → Except PanicKind (List Example)
  | [] => .ok []
  | d :: ds => do
      let r ← extract_one panic_on_missing metas d
      let rest ← parse_examples panic_on_missing metas ds
      return r.toList ++ rest

/-- One entry of the `[[package.metadata.example_category]]` array, restricted
to the keys the code reads. -/
structure CatEntry where
  name : Option Item
  description : Option Item
deriving DecidableEq

/-- Model of `parse_categories`: the category table parsed into (name, description)
pairs. A `none` table models the table being absent or not an array of
tables, on which `as_array_of_tables().unwrap()` panics; each entry's `name`
and `description` are unwrapped. -/
def parse_categories (table : Option (List CatEntry)) :
    Except PanicKind (List (String × String)) :=
  match table with
  | none => .error .malformedManifest
  | some entries =>
      entries.mapM fun v => do
        let n ← req (v.name.bind Item.as_str)
        let ds ← req (v.description.bind Item.as_str)
        return (n, ds)

/-- Model of `categories.get(&key).cloned()`: lookup in the map collected from the
parsed pairs; on duplicate keys the `HashMap` collect keeps the last write. -/
def catLookup (cats : List (String × String)) (c : String) : Option String :=
  List.lookup c cats.reverse

/-- The output-facing aggregate (struct `Category` in the source). -/
structure Category where
  description : Option String
  examples : List Example
deriving DecidableEq

/-- The ordering `impl Ord for Example` defines: lexicographic comparison of
the composite key `(category, name)` under ordinal string comparison.
Strings are compared through their character lists (Mathlib's lexicographic
linear order on `List Char`), which agrees with the ordinal byte order Rust's
`str: Ord` uses, since UTF-8 preserves scalar-value order. -/
def exampleLE (a b : Example) : Prop :=
  a.category.data < b.category.data ∨
    (a.category.data = b.category.data ∧ a.name.data ≤ b.name.data)

instance : DecidableRel exampleLE := fun _ _ =>
  inferInstanceAs (Decidable (_ ∨ _))

instance : IsTotal Example exampleLE := by
  constructor
  intro a b
  rcases lt_trichotomy a.category.data b.category.data with h | h | h
  · exact Or.inl (Or.inl h)
  · rcases le_total a.name.data b.name.data with hn | hn
    · exact Or.inl (Or.inr ⟨h, hn⟩)
    · exact Or.inr (Or.inr ⟨h.symm, hn⟩)
  · exact Or.inr (Or.inl h)

instance : IsTrans Example exampleLE := by
  constructor
  intro a b c hab hbc
  rcases hab with hab | ⟨hab, hab'⟩
  · rcases hbc with hbc | ⟨hbc, _⟩
    · exact Or.inl (hab.trans hbc)
    · exact Or.inl (hbc ▸ hab)
  · rcases hbc with hbc | ⟨hbc, hbc'⟩
    · exact Or.inl (hab ▸ hbc)
    · exact Or.inr ⟨hab.trans hbc, hab'.trans hbc'⟩

/-- The composite sort key of an example. -/
def exKey (e : Example) : String × String := (e.category, e.name)

/-- The `UPDATE` branch of `check`, per category: the examples are folded
into per-category vectors in input order (modelled by `filter`), each vector
is sorted with the stable `sort` (Mathlib's `insertionSort` is stable, like
Rust's `slice::sort`), and the category description is attached if present.
A category is present in the map iff some example carries it. -/
def build_catalog (cats : List (String × String)) (exs : List Example) :
    String → Option Category := fun c =>
  let group := exs.filter fun e => e.category == c
  if group.isEmpty then none
  else some { description := catLookup cats c,
              examples := List.insertionSort exampleLE group }

/-- The two boolean intents of the `Command` bitflags that `check` reads. -/
structure Command where
  check_missing : Bool
  update : Bool

/-- The parts of the manifest the tool reads. -/
structure Manifest where
  decls : List Decl
  metas : Metas
  categories : Option (List CatEntry)

/-- Model of `check`: extraction always runs with `panic_on_missing = CHECK_MISSING`;
only under `UPDATE` are the categories parsed, the catalog aggregated and
handed to the renderer. The payload `some catalog` models the rendered
output's data; `none` models a validation-only run with no output file. -/
def check (cmd : Command) (m : Manifest) :
    Except PanicKind (Option (String → Option Category)) := do
  let examples ← parse_examples cmd.check_missing m.metas m.decls
  if cmd.update then
    let cats ← parse_categories m.categories
    return some (build_catalog cats examples)
  else
    return none

/-! Concrete manifest fixtures used by witnesses and counterexamples. -/

/-- A declaration with no metadata entry in the fixtures below. -/
def ex3Decl : Decl := ⟨some (.str "ex3"), some (.str "p3"), some .other⟩

/-- A complete, non-hidden metadata entry. -/
def ex4Meta : MetaEntry :=
  ⟨some (.str "Fourth"), some (.str "D4"), some (.str "basic"), some (.bool false), none⟩

/-- A declaration lacking the doc-scrape-examples marker. -/
def ex4Decl : Decl := ⟨some (.str "ex4"), some (.str "p4"), none⟩

/-- Metadata whose `hidden` key holds a non-boolean value. -/
def ex9Meta : MetaEntry :=
  ⟨some (.str "Ninth"), some (.str "D9"), some (.str "basic"), some (.bool false),
    some (.str "yes")⟩

/-- A well-formed declaration carrying the doc-scrape-examples marker. -/
def ex9Decl : Decl := ⟨some (.str "ex9"), some (.str "p9"), some .other⟩

/-- A metadata entry with `hidden = true`. -/
def hiddenMeta : MetaEntry :=
  ⟨some (.str "Hid"), some (.str "DH"), some (.str "basic"), some (.bool false),
    some (.bool true)⟩

/-- A declaration with hidden metadata and no doc-scrape-examples marker. -/
def hiddenDecl : Decl := ⟨some (.str "exh"), some (.str "ph"), none⟩

/-- The same hidden declaration, carrying the doc-scrape-examples marker. -/
def hiddenMarkedDecl : Decl := ⟨some (.str "exh"), some (.str "ph"), some .other⟩

/-- The metadata table of the hidden fixture. -/
def hiddenMetas : Metas := [("exh", hiddenMeta)]

/-- A complete, non-hidden metadata entry for `ex1`. -/
def ex1Meta : MetaEntry :=
  ⟨some (.str "First"), some (.str "D1"), some (.str "basic"), some (.bool false), none⟩

/-- A well-formed declaration for `ex1`. -/
def ex1Decl : Decl := ⟨some (.str "ex1"), some (.str "p1"), some .other⟩

/-- The record extraction produces for `ex1`. -/
def ex1Record : Example := ⟨"ex1", "p1", "First", "D1", "basic", false⟩

/-- A category table entry describing the `basic` category. -/
def basicCatEntry : CatEntry := ⟨some (.str "basic"), some (.str "Basic examples.")⟩

/-- An example displayed as `Zeta` in category `basic`. -/
def zetaEx : Example := ⟨"tz", "pz", "Zeta", "dz", "basic", false⟩

/-- An example displayed as `Alpha` in category `basic`. -/
def alphaEx : Example := ⟨"ta", "pa", "Alpha", "da", "basic", false⟩

/-- Two distinct examples sharing the composite sort key `("c", "n")`. -/
def dupA : Example := ⟨"t1", "p1", "n", "dA", "c", false⟩

/-- See `dupA`: same `(category, name)` key, different record. -/
def dupB : Example := ⟨"t2", "p2", "n", "dB", "c", false⟩

/-- A small well-formed manifest: one documented example, one category. -/
def fixtureManifest : Manifest := ⟨[ex1Decl], [("ex1", ex1Meta)], some [basicCatEntry]⟩

end BevyExamples

namespace BevyExamples

/-! Helper lemmas. -/

/-- Mutually `exampleLE`-comparable examples have the same sort key
(the tuple order is antisymmetric on keys, not on whole records). -/
theorem exampleLE_antisymm_key {a b : Example} (hab : exampleLE a b)
    (hba : exampleLE b a) : exKey a = exKey b := by
  have hcat : a.category = b.category := by
    rcases hab with h | ⟨h, _⟩
    · rcases hba with h' | ⟨h', _⟩
      · exact absurd (h.trans h') (lt_irrefl _)
      · exact absurd h (h' ▸ lt_irrefl _)
    · exact String.toList_inj.mp h
  have hname : a.name = b.name := by
    rcases hab with h | ⟨_, h⟩
    · rcases hba with h' | ⟨h', _⟩
      · exact absurd (h.trans h') (lt_irrefl _)
      · exact absurd h (h' ▸ lt_irrefl _)
    · rcases hba with h' | ⟨_, h'⟩
      · exact absurd h' (hcat ▸ lt_irrefl _)
      · exact String.toList_inj.mp (le_antisymm h h')
  simp [exKey, hcat, hname]

/-! Claim theorems. -/

/-- C2: a declaration with no metadata entry for its technical name is
silently omitted (no record, no error) in non-strict mode; in strict mode
extraction fails with a missing-metadata error naming that technical name,
and a `check` run on such a manifest fails the same way, so no rendering
or output is performed. -/
theorem missing_metadata_behavior (tn : String) (d : Decl) (metas : Metas)
    (hname : d.name = some (.str tn)) (hmeta : getMeta metas tn = none) :
    extract_one false metas d = .ok none ∧
    extract_one true metas d = .error (.missingMetadata tn) ∧
    ∀ (u : Bool) (t : Option (List CatEntry)),
      check ⟨true, u⟩ ⟨[d], metas, t⟩ = .error (.missingMetadata tn) := by
  have h1 : extract_one false metas d = .ok none := by
    simp [extract_one, hname, hmeta, req, Item.as_str, Item.as_bool, bind, Except.bind, pure,
      Except.pure]
  have h2 : extract_one true metas d = .error (.missingMetadata tn) := by
    simp [extract_one, hname, hmeta, req, Item.as_str, bind, Except.bind, throw, throwThe,
      MonadExceptOf.throw]
  refine ⟨h1, h2, ?_⟩
  intro u t
  simp [check, parse_examples, h2, bind, Except.bind]

/-- C2 witness: the `ex3` scenario at concrete inputs. -/
theorem missing_metadata_behavior_witness :
    extract_one false [] ex3Decl = .ok none ∧
    extract_one true [] ex3Decl = .error (.missingMetadata "ex3") ∧
    check ⟨true, true⟩ ⟨[ex3Decl], [], none⟩ = .error (.missingMetadata "ex3") := by
  obtain ⟨h1, h2, h3⟩ := missing_metadata_behavior "ex3" ex3Decl [] rfl rfl
  exact ⟨h1, h2, h3 true none⟩

/-- C4: for a declaration lacking the doc-scrape-examples marker, strict
extraction fails fatally with an error naming that example (the
missing-doc-scrape error when its metadata exists, the missing-metadata
error otherwise); non-strict extraction never reads the marker, so its
absence causes no error. -/
theorem missing_doc_scrape_behavior (tn : String) (d : Decl) (metas : Metas)
    (hname : d.name = some (.str tn)) (hmark : d.doc_scrape_examples = none) :
    ((getMeta metas tn).isSome →
        extract_one true metas d = .error (.missingDocScrape tn)) ∧
    (getMeta metas tn = none →
        extract_one true metas d = .error (.missingMetadata tn)) ∧
    ∀ (metas' : Metas) (d' : Decl),
      extract_one false metas' d' =
        extract_one false metas' { d' with doc_scrape_examples := none } := by
  refine ⟨?_, ?_, ?_⟩
  · intro hsome
    rw [Option.isSome_iff_exists] at hsome
    obtain ⟨me, hme⟩ := hsome
    simp [extract_one, hname, hmark, hme, req, Item.as_str, bind, Except.bind, throw, throwThe,
      MonadExceptOf.throw]
  · intro hnone
    simp [extract_one, hname, hnone, req, Item.as_str, bind, Except.bind, throw, throwThe,
      MonadExceptOf.throw]
  · intro metas' d'
    simp [extract_one]

/-- C4 witness: the marker-less declaration `ex4` at concrete inputs. -/
theorem missing_doc_scrape_behavior_witness :
    extract_one true [("ex4", ex4Meta)] ex4Decl = .error (.missingDocScrape "ex4") ∧
    extract_one false [("ex4", ex4Meta)] ex4Decl =
      extract_one false [("ex4", ex4Meta)]
        { ex4Decl with doc_scrape_examples := none } := by
  obtain ⟨h1, _, h3⟩ :=
    missing_doc_scrape_behavior "ex4" ex4Decl [("ex4", ex4Meta)] rfl rfl
  exact ⟨h1 (by decide), h3 [("ex4", ex4Meta)] ex4Decl⟩

/-- C9: a metadata `hidden` key holding a non-boolean value is treated as
false: the example is included (a full record is produced) rather than
raising a wrong-type malformed-manifest error, in both validation modes. -/
theorem non_bool_hidden_included (strict : Bool) (tn p nm ds cat : String) (w : Bool)
    (d : Decl) (me : MetaEntry) (metas : Metas) (it : Item)
    (hname : d.name = some (.str tn))
    (hmeta : getMeta metas tn = some me)
    (hhid : me.hidden = some it) (hnb : it.as_bool = none)
    (hmark : d.doc_scrape_examples.isSome)
    (hpath : d.path = some (.str p))
    (hm1 : me.name = some (.str nm)) (hm2 : me.description = some (.str ds))
    (hm3 : me.category = some (.str cat)) (hm4 : me.wasm = some (.bool w)) :
    extract_one strict metas d = .ok (some ⟨tn, p, nm, ds, cat, w⟩) := by
  have hmark' : d.doc_scrape_examples ≠ none := by
    intro h; rw [h] at hmark; simp at hmark
  cases strict <;>
    simp [extract_one, hname, hmeta, hhid, hnb, hmark', hpath, hm1, hm2, hm3, hm4, req,
      Item.as_str, bind, Except.bind, pure, Except.pure] <;> rfl

/-- C9 witness: `hidden = "yes"` (a string) at concrete inputs, both modes. -/
theorem non_bool_hidden_included_witness :
    extract_one true [("ex9", ex9Meta)] ex9Decl =
      .ok (some ⟨"ex9", "p9", "Ninth", "D9", "basic", false⟩) ∧
    extract_one false [("ex9", ex9Meta)] ex9Decl =
      .ok (some ⟨"ex9", "p9", "Ninth", "D9", "basic", false⟩) :=
  ⟨non_bool_hidden_included true "ex9" "p9" "Ninth" "D9" "basic" false ex9Decl ex9Meta
      [("ex9", ex9Meta)] (.str "yes") rfl rfl rfl rfl (by decide) rfl rfl rfl rfl rfl,
    non_bool_hidden_included false "ex9" "p9" "Ninth" "D9" "basic" false ex9Decl ex9Meta
      [("ex9", ex9Meta)] (.str "yes") rfl rfl rfl rfl (by decide) rfl rfl rfl rfl rfl⟩

/-- C1 counterexample: a declaration whose metadata has `hidden = true` but
which lacks the doc-scrape-examples marker makes strict extraction fail
(with the missing-doc-scrape error), so extraction does not complete
without error for every hidden declaration in both modes. -/
theorem hidden_strict_marker_counterexample :
    ((getMeta hiddenMetas "exh").bind MetaEntry.hidden).bind Item.as_bool = some true ∧
    hiddenDecl.name = some (.str "exh") ∧
    extract_one true hiddenMetas hiddenDecl = .error (.missingDocScrape "exh") :=
  ⟨rfl, rfl, rfl⟩

/-- C1 (amended): a declaration whose metadata entry has `hidden = true`
produces no record in either mode; extraction completes without error for
it in non-strict mode always, and in strict mode provided the declaration
carries the doc-scrape-examples marker (a hidden declaration lacking the
marker still fails strict validation). -/
theorem hidden_excluded (strict : Bool) (tn : String) (d : Decl) (metas : Metas)
    (hname : d.name = some (.str tn))
    (hhid : ((getMeta metas tn).bind MetaEntry.hidden).bind Item.as_bool = some true)
    (hmark : strict = true → d.doc_scrape_examples.isSome) :
    extract_one strict metas d = .ok none := by
  have hsome : (getMeta metas tn).isSome := by
    cases h : getMeta metas tn with
    | none => rw [h] at hhid; simp at hhid
    | some me => rfl
  rw [Option.isSome_iff_exists] at hsome
  obtain ⟨me, hme⟩ := hsome
  rw [hme] at hhid
  have hhid' : me.hidden.bind Item.as_bool = some true := hhid
  cases hh : me.hidden with
  | none => rw [hh] at hhid'; simp at hhid'
  | some itb =>
    rw [hh] at hhid'
    have hhid : itb.as_bool = some true := hhid'
    cases strict with
    | false =>
      simp [extract_one, hname, hme, hh, hhid, req, Item.as_str, bind, Except.bind, pure,
        Except.pure]
    | true =>
      have hmark' : d.doc_scrape_examples ≠ none := by
        intro h; have := hmark rfl; rw [h] at this; simp at this
      simp [extract_one, hname, hme, hh, hmark', hhid, req, Item.as_str, bind, Except.bind, pure,
        Except.pure]

/-- C1 witness: the hidden declaration `exh`, excluded without error in
non-strict mode and, when it carries the marker, in strict mode too. -/
theorem hidden_excluded_witness :
    extract_one false hiddenMetas hiddenDecl = .ok none ∧
    extract_one true hiddenMetas hiddenMarkedDecl = .ok none :=
  ⟨hidden_excluded false "exh" hiddenDecl hiddenMetas rfl (by decide) (by decide),
    hidden_excluded true "exh" hiddenMarkedDecl hiddenMetas rfl (by decide) (by decide)⟩

/-- C3: within every category of the aggregated catalog, the examples are
sorted ascending by the composite key `(category, name)` under lexicographic
string comparison. -/
theorem catalog_sorted (cats : List (String × String)) (exs : List Example)
    (c : String) (cat : Category) (h : build_catalog cats exs c = some cat) :
    cat.examples.Sorted exampleLE := by
  simp only [build_catalog] at h
  split at h
  · exact absurd h (by simp)
  · cases h
    exact List.sorted_insertionSort exampleLE _

/-- C3 witness: a category holding `Zeta` and `Alpha` (declared in that
order) is aggregated as `[Alpha, Zeta]`, and that sequence is sorted. -/
theorem catalog_sorted_witness :
    build_catalog [] [zetaEx, alphaEx] "basic" = some ⟨none, [alphaEx, zetaEx]⟩ ∧
    (Category.mk none [alphaEx, zetaEx]).examples.Sorted exampleLE ∧
    [alphaEx, zetaEx].map Example.name = ["Alpha", "Zeta"] :=
  ⟨by decide,
    catalog_sorted [] [zetaEx, alphaEx] "basic" ⟨none, [alphaEx, zetaEx]⟩ (by decide),
    rfl⟩

/-- C8: a category name carried by some example but absent from the
category-description table aggregates successfully into a `Category` whose
description is absent; no error is raised. -/
theorem absent_category_description (cats : List (String × String))
    (exs : List Example) (c : String) (hlook : catLookup cats c = none)
    (e : Example) (he : e ∈ exs) (hc : e.category = c) :
    ∃ es, build_catalog cats exs c = some ⟨none, es⟩ := by
  have hmem : e ∈ exs.filter fun x => x.category == c :=
    List.mem_filter.mpr ⟨he, by simp [hc]⟩
  cases hfe : exs.filter fun x => x.category == c with
  | nil => rw [hfe] at hmem; exact absurd hmem (List.not_mem_nil e)
  | cons a as =>
    exact ⟨List.insertionSort exampleLE (a :: as), by simp [build_catalog, hfe, hlook]⟩

/-- C8 witness: category `basic` appears only in an example record, not in
the category table, and aggregates with an absent description. -/
theorem absent_category_description_witness :
    ∃ es, build_catalog [("other", "O")] [ex1Record] "basic" = some ⟨none, es⟩ :=
  absent_category_description [("other", "O")] [ex1Record] "basic" (by decide)
    ex1Record (by simp) (by decide)

/-- C7: a successful extraction returns exactly the per-declaration results
in the natural declaration order of the manifest — the `i`-th record comes
from the `i`-th declaration that yields one — with no sorting applied. -/
theorem parse_examples_order (strict : Bool) (metas : Metas) (decls : List Decl)
    (exs : List Example) (h : parse_examples strict metas decls = .ok exs) :
    exs = decls.filterMap fun d => ((extract_one strict metas d).toOption).join := by
  induction decls generalizing exs with
  | nil =>
    simp only [parse_examples] at h
    cases h
    rfl
  | cons d ds ih =>
    cases hr : extract_one strict metas d with
    | error e =>
      simp only [parse_examples, hr, bind, Except.bind] at h
      exact Except.noConfusion h
    | ok r =>
      cases hrest : parse_examples strict metas ds with
      | error e =>
        simp only [parse_examples, hr, hrest, bind, Except.bind] at h
        exact Except.noConfusion h
      | ok rest =>
        simp only [parse_examples, hr, hrest, bind, Except.bind, pure, Except.pure] at h
        cases h
        rw [List.filterMap_cons]
        cases r with
        | none => simpa [hr, Except.toOption, Option.join] using ih rest hrest
        | some e => simpa [hr, Except.toOption, Option.join] using ih rest hrest

/-- C7 witness: a two-declaration manifest where only `ex1` has metadata;
non-strict extraction returns exactly the filter-mapped records in
declaration order. -/
theorem parse_examples_order_witness :
    parse_examples false [("ex1", ex1Meta)] [ex1Decl, ex3Decl] = .ok [ex1Record] ∧
    [ex1Record] =
      [ex1Decl, ex3Decl].filterMap fun d =>
        ((extract_one false [("ex1", ex1Meta)] d).toOption).join :=
  ⟨rfl, parse_examples_order false [("ex1", ex1Meta)] [ex1Decl, ex3Decl] [ex1Record] rfl⟩

/-- C5: the dispatcher runs extraction with `strict = check_missing` for
every flag combination — an extraction error is the run's outcome verbatim —
and aggregation/rendering happen iff `update` is set: with `update` unset a
successful run produces no output, with it set the run's output is exactly
the aggregated catalog. -/
theorem check_dispatch (cmd : Command) (m : Manifest) :
    (∀ e, parse_examples cmd.check_missing m.metas m.decls = .error e →
        check cmd m = .error e) ∧
    (cmd.update = false → ∀ exs,
        parse_examples cmd.check_missing m.metas m.decls = .ok exs →
        check cmd m = .ok none) ∧
    (cmd.update = true → ∀ exs cs,
        parse_examples cmd.check_missing m.metas m.decls = .ok exs →
        parse_categories m.categories = .ok cs →
        check cmd m = .ok (some (build_catalog cs exs))) := by
  refine ⟨?_, ?_, ?_⟩
  · intro e he
    simp [check, he, bind, Except.bind]
  · intro hu exs hexs
    simp [check, hexs, hu, bind, Except.bind, pure, Except.pure]
  · intro hu exs cs hexs hcs
    simp [check, hexs, hcs, hu, bind, Except.bind, pure, Except.pure]

/-- C5 witness: on the fixture manifest, a validation-only run yields no
output and an update run yields exactly the aggregated catalog. -/
theorem check_dispatch_witness :
    check ⟨false, false⟩ fixtureManifest = .ok none ∧
    check ⟨false, true⟩ fixtureManifest =
      .ok (some (build_catalog [("basic", "Basic examples.")] [ex1Record])) :=
  ⟨(check_dispatch ⟨false, false⟩ fixtureManifest).2.1 rfl [ex1Record] rfl,
    (check_dispatch ⟨false, true⟩ fixtureManifest).2.2 rfl [ex1Record]
      [("basic", "Basic examples.")] rfl rfl⟩

/-- C10: with `update` unset, `check` never reads the category table: the
run's outcome is the extraction outcome (mapped to "no output"), whatever
the table holds — including a missing table or malformed entries, which
cause no error in a validation-only run. -/
theorem categories_unparsed_without_update (cm : Bool) (ds : List Decl)
    (ms : Metas) (t : Option (List CatEntry)) :
    check ⟨cm, false⟩ ⟨ds, ms, t⟩ = (parse_examples cm ms ds).map fun _ => none := by
  cases h : parse_examples cm ms ds <;>
    simp [check, h, bind, Except.bind, pure, Except.pure, Except.map]

/-- Two `exampleLE`-sorted lists that are permutations of each other and
whose sort keys are pairwise distinct are equal. -/
theorem sorted_perm_eq_of_nodup_keys (l1 : List Example) :
    ∀ l2 : List Example, l1.Sorted exampleLE → l2.Sorted exampleLE →
      l1.Perm l2 → (l1.map exKey).Nodup → l1 = l2 := by
  induction l1 with
  | nil =>
    intro l2 _ _ hp _
    exact hp.symm.eq_nil.symm ▸ rfl
  | cons a t1 ih =>
    intro l2 h1 h2 hp hnd
    cases l2 with
    | nil => exact absurd hp.eq_nil (by simp)
    | cons b t2 =>
      by_cases hab : a = b
      · subst hab
        rw [ih t2 h1.of_cons h2.of_cons hp.cons_inv (by simp [List.nodup_cons] at hnd; exact hnd.2)]
      · exfalso
        have hbt1 : b ∈ t1 := by
          rcases List.mem_cons.mp (hp.mem_iff.mpr (List.mem_cons_self b t2)) with h | h
          · exact absurd h.symm hab
          · exact h
        have hat2 : a ∈ t2 := by
          rcases List.mem_cons.mp (hp.mem_iff.mp (List.mem_cons_self a t1)) with h | h
          · exact absurd h hab
          · exact h
        have hkey : exKey a = exKey b :=
          exampleLE_antisymm_key (List.rel_of_sorted_cons h1 b hbt1)
            (List.rel_of_sorted_cons h2 a hat2)
        have hmem : exKey a ∈ t1.map exKey :=
          hkey ▸ List.mem_map_of_mem exKey hbt1
        have hnotin : exKey a ∉ t1.map exKey := by
          have hc : (exKey a :: t1.map exKey).Nodup := by simpa using hnd
          exact (List.nodup_cons.mp hc).1
        exact hnotin hmem

/-- C6 counterexample: two distinct records sharing the sort key
`("c", "n")`; permuting the input flips their order in the aggregated
category because the sort is stable, so the sorted sequences differ. -/
theorem aggregation_perm_counterexample :
    ([dupA, dupB] : List Example).Perm [dupB, dupA] ∧
    build_catalog [] [dupA, dupB] "c" ≠ build_catalog [] [dupB, dupA] "c" := by
  constructor
  · decide
  · decide

/-- C6 (amended): aggregation is order-independent up to intra-category
order — for permuted inputs each category holds the same description and
the same multiset of examples; the sorted sequences are moreover equal
whenever the `(category, name)` sort keys are pairwise distinct within the
category (with duplicate keys the stable sort preserves input order, so the
sequences can differ). -/
theorem aggregation_order_independent (cats : List (String × String))
    (l1 l2 : List Example) (c : String) (hperm : l1.Perm l2) :
    (build_catalog cats l1 c = none ↔ build_catalog cats l2 c = none) ∧
    ∀ cat1 cat2, build_catalog cats l1 c = some cat1 →
      build_catalog cats l2 c = some cat2 →
      cat1.description = cat2.description ∧
      cat1.examples.Perm cat2.examples ∧
      ((cat1.examples.map exKey).Nodup → cat1.examples = cat2.examples) := by
  have hfil : (l1.filter fun e => e.category == c).Perm
      (l2.filter fun e => e.category == c) := hperm.filter _
  have hnil : (l1.filter fun e => e.category == c) = [] ↔
      (l2.filter fun e => e.category == c) = [] :=
    ⟨fun h => ((h ▸ hfil).symm).eq_nil, fun h => (h ▸ hfil.symm).symm.eq_nil⟩
  constructor
  · cases hf1 : l1.filter fun e => e.category == c with
    | nil =>
      have hf2 := hnil.mp hf1
      simp [build_catalog, hf1, hf2]
    | cons x xs =>
      cases hf2 : l2.filter fun e => e.category == c with
      | nil => exact absurd (hnil.mpr hf2) (by simp [hf1])
      | cons y ys => simp [build_catalog, hf1, hf2]
  · intro cat1 cat2 hc1 hc2
    simp only [build_catalog] at hc1 hc2
    split at hc1
    · exact absurd hc1 (by simp)
    · split at hc2
      · exact absurd hc2 (by simp)
      · cases hc1
        cases hc2
        refine ⟨rfl, ?_, ?_⟩
        · exact (List.perm_insertionSort exampleLE _).trans
            (hfil.trans (List.perm_insertionSort exampleLE _).symm)
        · intro hnd
          exact sorted_perm_eq_of_nodup_keys _ _
            (List.sorted_insertionSort exampleLE _)
            (List.sorted_insertionSort exampleLE _)
            ((List.perm_insertionSort exampleLE _).trans
              (hfil.trans (List.perm_insertionSort exampleLE _).symm))
            hnd

/-- C6 witness: permuting `[Zeta, Alpha]` leaves the aggregated `basic`
category unchanged — same multiset and, the keys being distinct, the very
same sorted sequence. -/
theorem aggregation_order_independent_witness :
    (Category.mk none [alphaEx, zetaEx]).examples.Perm
      (Category.mk none [alphaEx, zetaEx]).examples ∧
    (Category.mk none [alphaEx, zetaEx]).examples =
      (Category.mk none [alphaEx, zetaEx]).examples := by
  have h := (aggregation_order_independent [] [zetaEx, alphaEx] [alphaEx, zetaEx]
      "basic" (by decide)).2 ⟨none, [alphaEx, zetaEx]⟩ ⟨none, [alphaEx, zetaEx]⟩
      (by decide) (by decide)
  exact ⟨h.2.1, h.2.2 (by decide)⟩

end BevyExamples
